import Mathlib

/-!
Shallow embedding of the core of `github-repo-open-issue-trends`
(src/period.rs, src/models.rs, src/main.rs, src/tsv_output_file.rs).

Rust `HashMap`s are embedded as association lists (`List (κ × ν)`) with
lookup of the first matching key; inserts replace the existing entry for a
key (or append), so exactly one entry per key is visible to lookups, as in
a `HashMap`. `i64` counters are embedded as `Int` (the program only ever
adds to them). Panics (`unwrap`, `expect`, `unreachable!`) are embedded as
`Option`/`Except` results with `none`/`error` for the panic.
-/

namespace GhTrends

/-- First-match lookup in an association list (embeds `HashMap::get`). -/
def lookupE {κ ν : Type} [DecidableEq κ] : List (κ × ν) → κ → Option ν
  | [], _ => none
  | (k', v') :: rest, k => if k' = k then some v' else lookupE rest k

/-- Replace the entry for `k` (or append one); embeds `HashMap::insert`
and writing through `get_mut`/`entry`. -/
def insertEntry {κ ν : Type} [DecidableEq κ] : List (κ × ν) → κ → ν → List (κ × ν)
  | [], k, v => [(k, v)]
  | (k', v') :: rest, k, v =>
    if k' = k then (k, v) :: rest else (k', v') :: insertEntry rest k v

@[simp]
theorem lookupE_nil {κ ν : Type} [DecidableEq κ] (k : κ) :
    lookupE ([] : List (κ × ν)) k = none := rfl

@[simp]
theorem lookupE_cons {κ ν : Type} [DecidableEq κ] (k' k : κ) (v' : ν) (rest : List (κ × ν)) :
    lookupE ((k', v') :: rest) k = if k' = k then some v' else lookupE rest k := rfl

@[simp]
theorem lookupE_insertEntry_self {κ ν : Type} [DecidableEq κ]
    (l : List (κ × ν)) (k : κ) (v : ν) :
    lookupE (insertEntry l k v) k = some v := by
  induction l with
  | nil => simp [insertEntry]
  | cons hd tl ih =>
    obtain ⟨k', v'⟩ := hd
    by_cases h : k' = k <;> simp [insertEntry, h, ih]

theorem lookupE_insertEntry_ne {κ ν : Type} [DecidableEq κ]
    (l : List (κ × ν)) (k k' : κ) (v : ν) (hne : k' ≠ k) :
    lookupE (insertEntry l k v) k' = lookupE l k' := by
  induction l with
  | nil => simp [insertEntry, Ne.symm hne]
  | cons hd tl ih =>
    obtain ⟨k0, v0⟩ := hd
    by_cases h : k0 = k
    · subst h
      simp [insertEntry, Ne.symm hne]
    · simp only [insertEntry, if_neg h, lookupE_cons]
      by_cases h' : k0 = k' <;> simp [h', ih]

/-- Full description of lookups after an insert. -/
theorem lookupE_insertEntry {κ ν : Type} [DecidableEq κ]
    (l : List (κ × ν)) (k k' : κ) (v : ν) :
    lookupE (insertEntry l k v) k' = if k' = k then some v else lookupE l k' := by
  by_cases h : k' = k
  · subst h; simp
  · simp [h, lookupE_insertEntry_ne l k k' v h]

/-! ## src/period.rs -/

/-- Embeds `chrono::DateTime<chrono::Utc>`: the program only ever reads
`year()` and `month()` (`month` is 1-based), but a timestamp carries
finer-grained fields too. -/
structure DTime where
  year : Int
  month : Nat
  day : Nat
  hour : Nat
  minute : Nat
  second : Nat
deriving DecidableEq, Repr

/-- Embeds `struct Month { year: i32, month: u32 }`. -/
structure Month where
  year : Int
  month : Nat
deriving DecidableEq, Repr

/-- Embeds `impl From<chrono::DateTime<Utc>> for Month`. -/
def Month.fromTimestamp (value : DTime) : Month :=
  { year := value.year, month := value.month }

/-- Embeds `struct TwoMonths { year: i32, month_pair: u32 }`. -/
structure TwoMonths where
  year : Int
  month_pair : Nat
deriving DecidableEq, Repr

/-- Embeds `impl From<chrono::DateTime<Utc>> for TwoMonths`. -/
def TwoMonths.fromTimestamp (value : DTime) : TwoMonths :=
  { year := value.year, month_pair := (value.month - 1) / 2 }

/-- Embeds `struct Quarter { year: i32, quarter: u32 }`. -/
structure Quarter where
  year : Int
  quarter : Nat
deriving DecidableEq, Repr

/-- Embeds `impl From<chrono::DateTime<Utc>> for Quarter`. -/
def Quarter.fromTimestamp (value : DTime) : Quarter :=
  { year := value.year, quarter := (value.month - 1) / 3 }

/-- Modelled from the spec: the `Year` granularity variant is referenced by
`main.rs` but its definition is absent from the sources provided; per the
spec it stores the year and is derived from the timestamp's year alone. -/
structure Year where
  year : Int
deriving DecidableEq, Repr

/-- Modelled from the spec: `Year` construction from a timestamp. -/
def Year.fromTimestamp (value : DTime) : Year :=
  { year := value.year }

/-- Three-way comparison of `Int` (embeds `i32::cmp`). -/
def cmpInt (a b : Int) : Ordering :=
  if a < b then Ordering.lt else if b < a then Ordering.gt else Ordering.eq

/-- Three-way comparison of `Nat` (embeds `u32::cmp`). -/
def cmpNat (a b : Nat) : Ordering :=
  if a < b then Ordering.lt else if b < a then Ordering.gt else Ordering.eq

/-- Embeds `#[derive(PartialOrd, Ord)]` on `Month`: field-lexicographic compare. -/
def Month.cmp (a b : Month) : Ordering :=
  match cmpInt a.year b.year with
  | Ordering.eq => cmpNat a.month b.month
  | o => o

/-- Embeds `#[derive(PartialOrd, Ord)]` on `TwoMonths`. -/
def TwoMonths.cmp (a b : TwoMonths) : Ordering :=
  match cmpInt a.year b.year with
  | Ordering.eq => cmpNat a.month_pair b.month_pair
  | o => o

/-- Embeds `#[derive(PartialOrd, Ord)]` on `Quarter`. -/
def Quarter.cmp (a b : Quarter) : Ordering :=
  match cmpInt a.year b.year with
  | Ordering.eq => cmpNat a.quarter b.quarter
  | o => o

/-- Modelled from the spec: comparison for the `Year` granularity. -/
def Year.cmp (a b : Year) : Ordering :=
  cmpInt a.year b.year

/-! ## src/models.rs -/

/-- Embeds `enum Counter { Opened, Closed }`. -/
inductive Counter
  | Opened
  | Closed
deriving DecidableEq, Repr

/-- Embeds `pub type IssueCategory = String`. -/
abbrev IssueCategory := String

/-- Embeds `struct Counters(HashMap<Counter, i64>)`. -/
structure Counters where
  entries : List (Counter × Int)
deriving DecidableEq, Repr

/-- Embeds `impl Default for Counters`: both keys present, value 0. -/
def Counters.mkDefault : Counters :=
  { entries := [(Counter.Opened, 0), (Counter.Closed, 0)] }

/-- Embeds `PeriodData::increment`'s inner mutation on one `Counters` value:
`*self.0.get_mut(&counter).unwrap() += 1`. `none` is the `unwrap` panic. -/
def Counters.incr (cs : Counters) (counter : Counter) : Option Counters :=
  match lookupE cs.entries counter with
  | some v => some { entries := insertEntry cs.entries counter (v + 1) }
  | none => none

/-- Embeds `struct PeriodData(HashMap<IssueCategory, Counters>)`. -/
structure PeriodData where
  entries : List (IssueCategory × Counters)
deriving DecidableEq, Repr

/-- Embeds `#[derive(Default)]` on `PeriodData`: the empty map. -/
def PeriodData.mkDefault : PeriodData :=
  { entries := [] }

/-- Embeds `PeriodData::get`: zero when the category or the counter is absent. -/
def PeriodData.get (pd : PeriodData) (category : IssueCategory) (counter : Counter) : Int :=
  match lookupE pd.entries category with
  | some cs =>
    match lookupE cs.entries counter with
    | some v => v
    | none => 0
  | none => 0

/-- Embeds `PeriodData::increment`: `self.0.entry(category).or_default().0
.get_mut(&counter).unwrap() += 1`. `none` is the `unwrap` panic. -/
def PeriodData.increment (pd : PeriodData) (category : IssueCategory) (counter : Counter) :
    Option PeriodData :=
  match ((lookupE pd.entries category).getD Counters.mkDefault).incr counter with
  | some cs => some { entries := insertEntry pd.entries category cs }
  | none => none

/-- A `Counters` map holds entries for both counter kinds. -/
def Counters.BothKeys (cs : Counters) : Prop :=
  (lookupE cs.entries Counter.Opened).isSome ∧ (lookupE cs.entries Counter.Closed).isSome

instance (cs : Counters) : Decidable cs.BothKeys := by
  unfold Counters.BothKeys; infer_instance

/-- Every `Counters` value stored in a `PeriodData` has both keys. -/
def PeriodData.WF (pd : PeriodData) : Prop :=
  ∀ category cs, lookupE pd.entries category = some cs → cs.BothKeys

theorem Counters.mkDefault_bothKeys : Counters.mkDefault.BothKeys := by
  constructor <;> simp [Counters.mkDefault, lookupE]

theorem PeriodData.mkDefault_wf : PeriodData.mkDefault.WF := by
  intro category cs h
  simp [PeriodData.mkDefault, lookupE] at h

/-- Lemma: `Counters.incr` succeeds exactly when the key is present. -/
theorem Counters.incr_isSome (cs : Counters) (counter : Counter) :
    (cs.incr counter).isSome ↔ (lookupE cs.entries counter).isSome := by
  unfold Counters.incr
  cases lookupE cs.entries counter <;> simp

/-- A successful `Counters.incr` bumps the target key by one and leaves
the other lookups unchanged. -/
theorem Counters.incr_lookup (cs cs' : Counters) (counter counter' : Counter)
    (h : cs.incr counter = some cs') :
    lookupE cs'.entries counter' =
      if counter' = counter then (lookupE cs.entries counter).map (· + 1)
      else lookupE cs.entries counter' := by
  unfold Counters.incr at h
  cases hv : lookupE cs.entries counter with
  | none => simp [hv] at h
  | some v =>
    simp only [hv] at h
    cases h
    simp [lookupE_insertEntry, hv]

/-- Lemma: `Counters.incr` preserves which keys are present. -/
theorem Counters.incr_isSome_lookup (cs cs' : Counters) (counter counter' : Counter)
    (h : cs.incr counter = some cs') :
    (lookupE cs'.entries counter').isSome = (lookupE cs.entries counter').isSome := by
  rw [Counters.incr_lookup cs cs' counter counter' h]
  by_cases hc : counter' = counter
  · subst hc
    cases lookupE cs.entries counter' <;> simp
  · simp [hc]

theorem Counters.incr_bothKeys (cs cs' : Counters) (counter : Counter)
    (h : cs.incr counter = some cs') (hwf : cs.BothKeys) : cs'.BothKeys := by
  obtain ⟨h1, h2⟩ := hwf
  constructor
  · rw [Counters.incr_isSome_lookup cs cs' counter Counter.Opened h]; exact h1
  · rw [Counters.incr_isSome_lookup cs cs' counter Counter.Closed h]; exact h2

/-- On a well-formed `PeriodData`, `increment` never hits the `unwrap`. -/
theorem PeriodData.increment_isSome (pd : PeriodData) (category : IssueCategory)
    (counter : Counter) (hwf : pd.WF) : (pd.increment category counter).isSome := by
  unfold PeriodData.increment
  have hbk : ((lookupE pd.entries category).getD Counters.mkDefault).BothKeys := by
    cases hc : lookupE pd.entries category with
    | none => simpa using Counters.mkDefault_bothKeys
    | some cs => simpa using hwf category cs hc
  have : ((((lookupE pd.entries category).getD Counters.mkDefault)).incr counter).isSome := by
    rw [Counters.incr_isSome]
    cases counter
    · exact hbk.1
    · exact hbk.2
  cases h : (((lookupE pd.entries category).getD Counters.mkDefault)).incr counter with
  | none => rw [h] at this; simp at this
  | some cs => simp

/-- A successful `increment` preserves well-formedness. -/
theorem PeriodData.increment_wf (pd pd' : PeriodData) (category : IssueCategory)
    (counter : Counter) (h : pd.increment category counter = some pd') (hwf : pd.WF) :
    pd'.WF := by
  unfold PeriodData.increment at h
  cases hi : (((lookupE pd.entries category).getD Counters.mkDefault)).incr counter with
  | none => rw [hi] at h; cases h
  | some cs =>
    rw [hi] at h
    cases h
    intro cat' cs' hlook
    rw [lookupE_insertEntry] at hlook
    split at hlook
    · cases hlook
      refine Counters.incr_bothKeys _ _ counter hi ?_
      cases hc : lookupE pd.entries category with
      | none => simpa using Counters.mkDefault_bothKeys
      | some cs0 => simpa using hwf category cs0 hc
    · exact hwf cat' cs' hlook

/-- Lemma: `get` factors through the `entry(...).or_default()` view of the map:
the defaulted `Counters` has value 0 for every key, so the `getD 0` at the
counter level agrees with the source's nested-match 0 fallbacks. -/
theorem PeriodData.get_eq_lookup (pd : PeriodData) (category : IssueCategory)
    (counter : Counter) :
    pd.get category counter =
      (lookupE ((lookupE pd.entries category).getD Counters.mkDefault).entries counter).getD 0 := by
  unfold PeriodData.get
  cases hc : lookupE pd.entries category with
  | none =>
    cases counter <;> simp [Counters.mkDefault, lookupE]
  | some cs =>
    simp only [Option.getD_some]
    cases hv : lookupE cs.entries counter <;> simp

/-- A successful `increment` adds one to exactly the target
(category, counter) cell of `get` and leaves every other cell unchanged. -/
theorem PeriodData.increment_get (pd pd' : PeriodData) (category cat' : IssueCategory)
    (counter counter' : Counter) (h : pd.increment category counter = some pd') :
    pd'.get cat' counter' =
      pd.get cat' counter' +
        (if cat' = category ∧ counter' = counter then 1 else 0) := by
  unfold PeriodData.increment at h
  cases hi : (((lookupE pd.entries category).getD Counters.mkDefault)).incr counter with
  | none => rw [hi] at h; cases h
  | some cs =>
    rw [hi] at h
    cases h
    rw [PeriodData.get_eq_lookup, PeriodData.get_eq_lookup]
    simp only [lookupE_insertEntry]
    by_cases hcat : cat' = category
    · subst hcat
      simp only [eq_self_iff_true, if_true, true_and, Option.getD_some]
      rw [Counters.incr_lookup _ _ counter counter' hi]
      by_cases hctr : counter' = counter
      · subst hctr
        have hv : (lookupE ((lookupE pd.entries cat').getD Counters.mkDefault).entries
            counter').isSome := by
          by_contra hno
          unfold Counters.incr at hi
          cases hl : lookupE ((lookupE pd.entries cat').getD Counters.mkDefault).entries
              counter' with
          | none => rw [hl] at hi; cases hi
          | some v => rw [hl] at hno; simp at hno
        cases hl : lookupE ((lookupE pd.entries cat').getD Counters.mkDefault).entries
            counter' with
        | none => rw [hl] at hv; simp at hv
        | some v => simp [hl]
      · simp [hctr]
    · simp [hcat]

/-! ## src/main.rs -/

/-- GraphQL `IssueState`: `OPEN`, `CLOSED`, or the generated `Other(String)`
catch-all for unknown enum values. -/
inductive IssueState
  | OPEN
  | CLOSED
  | Other (s : String)
deriving DecidableEq, Repr

/-- One label node: only its `name` is read. -/
structure LabelNode where
  name : String
deriving DecidableEq, Repr

/-- The issue's `labels` connection: `nodes: Option<Vec<Option<LabelNode>>>`. -/
structure LabelsConn where
  nodes : Option (List (Option LabelNode))
deriving DecidableEq, Repr

/-- Embeds `OpenedAndClosedIssuesRepositoryIssuesNodes`: the issue record shape
the core consumes. -/
structure IssueNode where
  created_at : DTime
  closed_at : Option DTime
  state : IssueState
  labels : Option LabelsConn
  url : String
deriving DecidableEq, Repr

abbrev Issue := IssueNode

/-- The label collection of `categorize_issue`:
`issue.labels.iter().flat_map(|labels| &labels.nodes).flatten().flatten()`. -/
def IssueNode.labelList (issue : Issue) : List LabelNode :=
  match issue.labels with
  | none => []
  | some conn =>
    match conn.nodes with
    | none => []
    | some nodes => nodes.filterMap id

/-- Embeds `OpenedAndClosedIssuesRepositoryIssuesNodes::closed_at` (the method):
returns the effective close time plus whether the data-inconsistency
warning was printed; `error` is the `unreachable!` panic on an unknown
state. -/
def IssueNode.resolved_closed_at (issue : Issue) : Except String (Option DTime × Bool) :=
  match issue.closed_at with
  | some closed_at => Except.ok (some closed_at, false)
  | none =>
    if issue.state = IssueState.CLOSED then
      Except.ok (some issue.created_at, true)
    else
      match issue.state with
      | IssueState.Other s => Except.error ("Unknown issue state: " ++ s)
      | _ => Except.ok (none, false)

/-- Embeds `struct PlotData<P: Period>`; generic `P` is the period type. -/
structure PlotData (P : Type) where
  periods : List (P × PeriodData)
  label_to_category : List (String × IssueCategory)
  category_to_labels : List (IssueCategory × String)
  categories : List IssueCategory
deriving Repr, DecidableEq

/-- The `for (label, category) in &args.label_category` loop of
`PlotData::new`, processed head first. -/
def PlotData.newGo {P : Type} : List (String × String) → PlotData P → PlotData P
  | [], acc => acc
  | (label, category) :: rest, acc =>
    PlotData.newGo rest
      { acc with
        categories :=
          if category ∈ acc.categories then acc.categories else acc.categories ++ [category]
        label_to_category := insertEntry acc.label_to_category label category
        category_to_labels :=
          match lookupE acc.category_to_labels category with
          | some labels => insertEntry acc.category_to_labels category (labels ++ ",")
          | none => insertEntry acc.category_to_labels category label }

/-- Embeds `PlotData::new`: builds the classification maps from the configured
`(label, category)` pairs; `periods` starts empty. -/
def PlotData.new (P : Type) (label_category : List (String × String)) : PlotData P :=
  PlotData.newGo label_category
    { periods := [], label_to_category := [], category_to_labels := [], categories := [] }

/-- Embeds `PlotData::increment`: `self.periods.entry(period).or_default()
.increment(category, counter)`. `none` is the inner `unwrap` panic. -/
def PlotData.increment {P : Type} [DecidableEq P] (p : PlotData P) (period : P)
    (category : IssueCategory) (counter : Counter) : Option (PlotData P) :=
  match ((lookupE p.periods period).getD PeriodData.mkDefault).increment category counter with
  | some pd => some { p with periods := insertEntry p.periods period pd }
  | none => none

/-- The label-scan of `categorize_issue` applied to a classification
table: the first label (in the issue's own order) present in the table
wins. -/
def firstLabelMatch (table : List (String × IssueCategory)) :
    List LabelNode → Option IssueCategory
  | [] => none
  | label :: rest =>
    match lookupE table label.name with
    | some category_for_label => some category_for_label
    | none => firstLabelMatch table rest

/-- Embeds `PlotData::categorize_issue`: first matching label, else the `"*"`
wildcard entry; `none` is the `expect` panic when the wildcard is absent. -/
def PlotData.categorize_issue {P : Type} (p : PlotData P) (issue : Issue) :
    Option IssueCategory :=
  match firstLabelMatch p.label_to_category issue.labelList with
  | some category => some category
  | none => lookupE p.label_to_category "*"

/-- Embeds `PlotData::analyze_issue`: categorize, count the issue as opened in
its creation period and, when it has an effective close time, as closed in
that period. `error` is any panic on the way. -/
def PlotData.analyze_issue {P : Type} [DecidableEq P] (fromTs : DTime → P)
    (p : PlotData P) (issue : Issue) : Except String (PlotData P) :=
  match p.categorize_issue issue with
  | none =>
    Except.error "there needs to be a default category"
  | some category =>
    match p.increment (fromTs issue.created_at) category Counter.Opened with
    | none => Except.error "increment panicked"
    | some p1 =>
      match issue.resolved_closed_at with
      | Except.error e => Except.error e
      | Except.ok (some closed_date, _) =>
        match p1.increment (fromTs closed_date) category Counter.Closed with
        | none => Except.error "increment panicked"
        | some p2 => Except.ok p2
      | Except.ok (none, _) => Except.ok p1

/-- Embeds `PlotData::analyze_issues`: `for issue in issues.iter().flatten()`. -/
def PlotData.analyze_issues {P : Type} [DecidableEq P] (fromTs : DTime → P)
    (p : PlotData P) : List (Option Issue) → Except String (PlotData P)
  | [] => Except.ok p
  | none :: rest => PlotData.analyze_issues fromTs p rest
  | some issue :: rest =>
    match PlotData.analyze_issue fromTs p issue with
    | Except.ok p' => PlotData.analyze_issues fromTs p' rest
    | Except.error e => Except.error e

/-- The count recorded for a (period, category, counter) cell: absent
periods read as the default (empty) `PeriodData`, whose cells are 0. -/
def PlotData.countOf {P : Type} [DecidableEq P] (p : PlotData P) (period : P)
    (category : IssueCategory) (counter : Counter) : Int :=
  ((lookupE p.periods period).getD PeriodData.mkDefault).get category counter

/-- Every `PeriodData` stored in `periods` is well-formed. -/
def PlotData.WF {P : Type} [DecidableEq P] (p : PlotData P) : Prop :=
  ∀ period pd, lookupE p.periods period = some pd → pd.WF

/-! ## src/tsv_output_file.rs -/

/-- One period's within-category net: `opened - closed`. -/
def periodDelta (period_data : PeriodData) (category : IssueCategory) : Int :=
  period_data.get category Counter.Opened - period_data.get category Counter.Closed

/-- The header suffix for one category: the category name followed, when
the category has mapped labels, by the parenthesized label string. -/
def categoryHeaderSuffix (category_to_labels : List (IssueCategory × String))
    (category : IssueCategory) : String :=
  category ++
    (match lookupE category_to_labels category with
     | some labels => " (" ++ labels ++ ")"
     | none => "")

/-- Embeds `PeriodStatsFile::add_headers`: the line written. The `\x7b` / `\x7d`
bytes are the literal braces the Rust `\x7b\x7bprefix\x7d\x7d` escape in the
format string emits. -/
def PeriodStatsFile.headersLine (period_label : String) (categories : List IssueCategory)
    (category_to_labels : List (IssueCategory × String)) : String :=
  period_label ++
    String.join (categories.map (fun category =>
      "\tTODO\x7bprefix\x7d" ++ categoryHeaderSuffix category_to_labels category)) ++ "\n"

/-- Embeds `PeriodStatsFile::add_row`: the numeric fields written for one period,
one per category, in category order. -/
def PeriodStatsFile.rowValues (get_value_fn : PeriodData → IssueCategory → Int)
    (period_data : PeriodData) (categories : List IssueCategory) : List Int :=
  categories.map (fun category => get_value_fn period_data category)

/-- Embeds `AccumulatedPeriodStatsFile::add_headers`: the line written. -/
def AccumulatedPeriodStatsFile.headersLine (period_label : String)
    (categories : List IssueCategory)
    (category_to_labels : List (IssueCategory × String)) : String :=
  period_label ++
    String.join (categories.map (fun category =>
      "\tOpen " ++ categoryHeaderSuffix category_to_labels category)) ++ "\n"

/-- Embeds `self.total.entry(category).and_modify(|c| *c += delta).or_insert(delta)`. -/
def upsertAddDelta (total : List (IssueCategory × Int)) (category : IssueCategory)
    (delta : Int) : List (IssueCategory × Int) :=
  insertEntry total category ((lookupE total category).getD 0 + delta)

/-- The `for category in categories` loop body of
`AccumulatedPeriodStatsFile::add_row`: threads the running `total` map and
collects the numeric fields written (`self.total.get(category).unwrap()`,
embedded as `getD 0`; the key was just upserted so the lookup succeeds). -/
def AccumulatedPeriodStatsFile.addRowGo (period_data : PeriodData) :
    List IssueCategory → List (IssueCategory × Int) →
      List (IssueCategory × Int) × List Int
  | [], total => (total, [])
  | category :: rest, total =>
    let delta := periodDelta period_data category
    let total' := upsertAddDelta total category delta
    let value := (lookupE total' category).getD 0
    let next := AccumulatedPeriodStatsFile.addRowGo period_data rest total'
    (next.1, value :: next.2)

/-- Driving `AccumulatedPeriodStatsFile::add_row` once per period, in the
order given: the emitted numeric row for each period. -/
def AccumulatedPeriodStatsFile.driveRows (categories : List IssueCategory) :
    List PeriodData → List (IssueCategory × Int) → List (List Int)
  | [], _ => []
  | period_data :: rest, total =>
    let step := AccumulatedPeriodStatsFile.addRowGo period_data categories total
    step.2 :: AccumulatedPeriodStatsFile.driveRows categories rest step.1

/-- The running total the cumulative column should show: the sum of the
per-period deltas seen so far. -/
def cumulativeSum (pds : List PeriodData) (category : IssueCategory) : Int :=
  (pds.map (fun pd => periodDelta pd category)).sum

/-! ## Helper lemmas for the derived lexicographic comparisons -/

theorem lexCmp_lt_iff (a b : Int) (x y : Nat) :
    (match cmpInt a b with
      | Ordering.eq => cmpNat x y
      | o => o) = Ordering.lt ↔ (a < b ∨ (a = b ∧ x < y)) := by
  unfold cmpInt cmpNat
  by_cases h1 : a < b
  · simp [h1]
  · by_cases h2 : b < a
    · simp [h1, h2]
      omega
    · have h3 : a = b := le_antisymm (not_lt.mp h2) (not_lt.mp h1)
      by_cases h4 : x < y <;> by_cases h5 : y < x <;> simp [h1, h2, h3, h4, h5] <;> omega

theorem lexCmp_eq_iff (a b : Int) (x y : Nat) :
    (match cmpInt a b with
      | Ordering.eq => cmpNat x y
      | o => o) = Ordering.eq ↔ (a = b ∧ x = y) := by
  unfold cmpInt cmpNat
  by_cases h1 : a < b
  · simp [h1]
    omega
  · by_cases h2 : b < a
    · simp [h1, h2]
      omega
    · by_cases h4 : x < y <;> by_cases h5 : y < x <;> simp [h1, h2, h4, h5] <;> omega

theorem lexCmp_gt_iff (a b : Int) (x y : Nat) :
    (match cmpInt a b with
      | Ordering.eq => cmpNat x y
      | o => o) = Ordering.gt ↔ (b < a ∨ (b = a ∧ y < x)) := by
  unfold cmpInt cmpNat
  by_cases h1 : a < b
  · simp [h1] <;> omega
  · by_cases h2 : b < a
    · simp [h1, h2] <;> omega
    · by_cases h4 : x < y <;> by_cases h5 : y < x <;> simp [h1, h2, h4, h5] <;> omega

/-! ## C4 -/

/-- C4: each `from_timestamp` is a pure function of the timestamp's year
and month (identical year and month give the identical Period at every
granularity, whatever the finer-grained fields), `Month` keeps
(year, month), `TwoMonths` buckets by `(month - 1) / 2` (6 buckets per
year), `Quarter` by `(month - 1) / 3` (4 buckets per year), with no error
condition (the functions are total). -/
theorem C4_from_timestamp_pure_of_year_month :
    (∀ t1 t2 : DTime, t1.year = t2.year → t1.month = t2.month →
      Month.fromTimestamp t1 = Month.fromTimestamp t2 ∧
      TwoMonths.fromTimestamp t1 = TwoMonths.fromTimestamp t2 ∧
      Quarter.fromTimestamp t1 = Quarter.fromTimestamp t2) ∧
    (∀ t : DTime,
      Month.fromTimestamp t = { year := t.year, month := t.month } ∧
      TwoMonths.fromTimestamp t = { year := t.year, month_pair := (t.month - 1) / 2 } ∧
      Quarter.fromTimestamp t = { year := t.year, quarter := (t.month - 1) / 3 }) ∧
    (∀ t : DTime, 1 ≤ t.month → t.month ≤ 12 →
      (TwoMonths.fromTimestamp t).month_pair < 6 ∧
      (Quarter.fromTimestamp t).quarter < 4) := by
  refine ⟨?_, ?_, ?_⟩
  · intro t1 t2 hy hm
    refine ⟨?_, ?_, ?_⟩ <;>
      simp [Month.fromTimestamp, TwoMonths.fromTimestamp, Quarter.fromTimestamp, hy, hm]
  · intro t
    exact ⟨rfl, rfl, rfl⟩
  · intro t h1 h12
    constructor
    · simp only [TwoMonths.fromTimestamp]
      omega
    · simp only [Quarter.fromTimestamp]
      omega

/-- Witness for C4 at concrete timestamps: 2023-05-17 01:02:03 and
2023-05-01 00:00:00 fall in the same buckets, and May's buckets are in
range. -/
theorem C4_witness :
    Month.fromTimestamp ⟨2023, 5, 17, 1, 2, 3⟩ = Month.fromTimestamp ⟨2023, 5, 1, 0, 0, 0⟩ ∧
    TwoMonths.fromTimestamp ⟨2023, 5, 17, 1, 2, 3⟩ =
      TwoMonths.fromTimestamp ⟨2023, 5, 1, 0, 0, 0⟩ ∧
    (TwoMonths.fromTimestamp ⟨2023, 5, 17, 1, 2, 3⟩).month_pair < 6 ∧
    (Quarter.fromTimestamp ⟨2023, 5, 17, 1, 2, 3⟩).quarter < 4 :=
  ⟨(C4_from_timestamp_pure_of_year_month.1 _ _ rfl rfl).1,
   (C4_from_timestamp_pure_of_year_month.1 _ _ rfl rfl).2.1,
   (C4_from_timestamp_pure_of_year_month.2.2 _ (by decide) (by decide)).1,
   (C4_from_timestamp_pure_of_year_month.2.2 _ (by decide) (by decide)).2⟩

/-! ## C5 -/

theorem month_cmp_lt_iff (a b : Month) :
    Month.cmp a b = Ordering.lt ↔
      (a.year < b.year ∨ (a.year = b.year ∧ a.month < b.month)) :=
  lexCmp_lt_iff a.year b.year a.month b.month

theorem month_cmp_eq_iff (a b : Month) : Month.cmp a b = Ordering.eq ↔ a = b := by
  constructor
  · intro h
    obtain ⟨h1, h2⟩ := (lexCmp_eq_iff a.year b.year a.month b.month).mp h
    cases a; cases b; simp_all
  · intro h
    subst h
    exact (lexCmp_eq_iff a.year a.year a.month a.month).mpr ⟨rfl, rfl⟩

theorem month_cmp_gt_iff (a b : Month) :
    Month.cmp a b = Ordering.gt ↔
      (b.year < a.year ∨ (b.year = a.year ∧ b.month < a.month)) :=
  lexCmp_gt_iff a.year b.year a.month b.month

theorem twoMonths_cmp_lt_iff (a b : TwoMonths) :
    TwoMonths.cmp a b = Ordering.lt ↔
      (a.year < b.year ∨ (a.year = b.year ∧ a.month_pair < b.month_pair)) :=
  lexCmp_lt_iff a.year b.year a.month_pair b.month_pair

theorem twoMonths_cmp_eq_iff (a b : TwoMonths) :
    TwoMonths.cmp a b = Ordering.eq ↔ a = b := by
  constructor
  · intro h
    obtain ⟨h1, h2⟩ := (lexCmp_eq_iff a.year b.year a.month_pair b.month_pair).mp h
    cases a; cases b; simp_all
  · intro h
    subst h
    exact (lexCmp_eq_iff a.year a.year a.month_pair a.month_pair).mpr ⟨rfl, rfl⟩

theorem twoMonths_cmp_gt_iff (a b : TwoMonths) :
    TwoMonths.cmp a b = Ordering.gt ↔
      (b.year < a.year ∨ (b.year = a.year ∧ b.month_pair < a.month_pair)) :=
  lexCmp_gt_iff a.year b.year a.month_pair b.month_pair

theorem quarter_cmp_lt_iff (a b : Quarter) :
    Quarter.cmp a b = Ordering.lt ↔
      (a.year < b.year ∨ (a.year = b.year ∧ a.quarter < b.quarter)) :=
  lexCmp_lt_iff a.year b.year a.quarter b.quarter

theorem quarter_cmp_eq_iff (a b : Quarter) :
    Quarter.cmp a b = Ordering.eq ↔ a = b := by
  constructor
  · intro h
    obtain ⟨h1, h2⟩ := (lexCmp_eq_iff a.year b.year a.quarter b.quarter).mp h
    cases a; cases b; simp_all
  · intro h
    subst h
    exact (lexCmp_eq_iff a.year a.year a.quarter a.quarter).mpr ⟨rfl, rfl⟩

theorem quarter_cmp_gt_iff (a b : Quarter) :
    Quarter.cmp a b = Ordering.gt ↔
      (b.year < a.year ∨ (b.year = a.year ∧ b.quarter < a.quarter)) :=
  lexCmp_gt_iff a.year b.year a.quarter b.quarter

theorem year_cmp_lt_iff (a b : Year) :
    Year.cmp a b = Ordering.lt ↔ a.year < b.year := by
  unfold Year.cmp cmpInt
  split_ifs <;> simp <;> omega

theorem year_cmp_eq_iff (a b : Year) : Year.cmp a b = Ordering.eq ↔ a = b := by
  unfold Year.cmp cmpInt
  cases a; cases b
  split_ifs <;> simp_all <;> omega

theorem year_cmp_gt_iff (a b : Year) :
    Year.cmp a b = Ordering.gt ↔ b.year < a.year := by
  unfold Year.cmp cmpInt
  split_ifs <;> simp <;> omega

/-- C5: each granularity's derived comparison is the lexicographic
year-major, bucket-minor comparison, and it is a strict total order
(`eq` exactly on equal values, `gt` exactly when the swapped compare is
`lt`, `lt` transitive — trichotomy holds because `Ordering` has only the
three values); consequently comparing the periods of two timestamps never
disagrees with chronological order. -/
theorem C5_period_cmp_total_lex :
    (∀ a b : Month,
      (Month.cmp a b = Ordering.lt ↔
        (a.year < b.year ∨ (a.year = b.year ∧ a.month < b.month))) ∧
      (Month.cmp a b = Ordering.eq ↔ a = b) ∧
      (Month.cmp a b = Ordering.gt ↔ Month.cmp b a = Ordering.lt)) ∧
    (∀ a b c : Month, Month.cmp a b = Ordering.lt → Month.cmp b c = Ordering.lt →
      Month.cmp a c = Ordering.lt) ∧
    (∀ a b : TwoMonths,
      (TwoMonths.cmp a b = Ordering.lt ↔
        (a.year < b.year ∨ (a.year = b.year ∧ a.month_pair < b.month_pair))) ∧
      (TwoMonths.cmp a b = Ordering.eq ↔ a = b) ∧
      (TwoMonths.cmp a b = Ordering.gt ↔ TwoMonths.cmp b a = Ordering.lt)) ∧
    (∀ a b c : TwoMonths, TwoMonths.cmp a b = Ordering.lt →
      TwoMonths.cmp b c = Ordering.lt → TwoMonths.cmp a c = Ordering.lt) ∧
    (∀ a b : Quarter,
      (Quarter.cmp a b = Ordering.lt ↔
        (a.year < b.year ∨ (a.year = b.year ∧ a.quarter < b.quarter))) ∧
      (Quarter.cmp a b = Ordering.eq ↔ a = b) ∧
      (Quarter.cmp a b = Ordering.gt ↔ Quarter.cmp b a = Ordering.lt)) ∧
    (∀ a b c : Quarter, Quarter.cmp a b = Ordering.lt →
      Quarter.cmp b c = Ordering.lt → Quarter.cmp a c = Ordering.lt) ∧
    (∀ a b : Year,
      (Year.cmp a b = Ordering.lt ↔ a.year < b.year) ∧
      (Year.cmp a b = Ordering.eq ↔ a = b) ∧
      (Year.cmp a b = Ordering.gt ↔ Year.cmp b a = Ordering.lt)) ∧
    (∀ a b c : Year, Year.cmp a b = Ordering.lt → Year.cmp b c = Ordering.lt →
      Year.cmp a c = Ordering.lt) ∧
    (∀ t1 t2 : DTime,
      (t1.year < t2.year ∨ (t1.year = t2.year ∧ t1.month ≤ t2.month)) →
      Month.cmp (Month.fromTimestamp t1) (Month.fromTimestamp t2) ≠ Ordering.gt ∧
      TwoMonths.cmp (TwoMonths.fromTimestamp t1) (TwoMonths.fromTimestamp t2) ≠
        Ordering.gt ∧
      Quarter.cmp (Quarter.fromTimestamp t1) (Quarter.fromTimestamp t2) ≠ Ordering.gt ∧
      Year.cmp (Year.fromTimestamp t1) (Year.fromTimestamp t2) ≠ Ordering.gt) := by
  refine ⟨?_, ?_, ?_, ?_, ?_, ?_, ?_, ?_, ?_⟩
  · intro a b
    refine ⟨month_cmp_lt_iff a b, month_cmp_eq_iff a b, ?_⟩
    rw [month_cmp_gt_iff, month_cmp_lt_iff]
  · intro a b c hab hbc
    rw [month_cmp_lt_iff] at hab hbc ⊢
    omega
  · intro a b
    refine ⟨twoMonths_cmp_lt_iff a b, twoMonths_cmp_eq_iff a b, ?_⟩
    rw [twoMonths_cmp_gt_iff, twoMonths_cmp_lt_iff]
  · intro a b c hab hbc
    rw [twoMonths_cmp_lt_iff] at hab hbc ⊢
    omega
  · intro a b
    refine ⟨quarter_cmp_lt_iff a b, quarter_cmp_eq_iff a b, ?_⟩
    rw [quarter_cmp_gt_iff, quarter_cmp_lt_iff]
  · intro a b c hab hbc
    rw [quarter_cmp_lt_iff] at hab hbc ⊢
    omega
  · intro a b
    refine ⟨year_cmp_lt_iff a b, year_cmp_eq_iff a b, ?_⟩
    rw [year_cmp_gt_iff, year_cmp_lt_iff]
  · intro a b c hab hbc
    rw [year_cmp_lt_iff] at hab hbc ⊢
    omega
  · intro t1 t2 h
    refine ⟨?_, ?_, ?_, ?_⟩
    · rw [Ne, month_cmp_gt_iff]
      simp only [Month.fromTimestamp]
      omega
    · rw [Ne, twoMonths_cmp_gt_iff]
      simp only [TwoMonths.fromTimestamp]
      omega
    · rw [Ne, quarter_cmp_gt_iff]
      simp only [Quarter.fromTimestamp]
      omega
    · rw [Ne, year_cmp_gt_iff]
      simp only [Year.fromTimestamp]
      omega

/-- Witness for C5 at concrete periods and timestamps: 2023 May precedes
2023 Jun and 2024 Jan, compare is `eq` on equal months, and the periods of
2023-03-05 and 2023-11-20 are not out of order at any granularity. -/
theorem C5_witness :
    Month.cmp ⟨2023, 5⟩ ⟨2023, 6⟩ = Ordering.lt ∧
    Month.cmp ⟨2023, 5⟩ ⟨2024, 1⟩ = Ordering.lt ∧
    Month.cmp ⟨2023, 5⟩ ⟨2023, 5⟩ = Ordering.eq ∧
    Month.cmp (Month.fromTimestamp ⟨2023, 3, 5, 0, 0, 0⟩)
      (Month.fromTimestamp ⟨2023, 11, 20, 0, 0, 0⟩) ≠ Ordering.gt ∧
    Quarter.cmp (Quarter.fromTimestamp ⟨2023, 3, 5, 0, 0, 0⟩)
      (Quarter.fromTimestamp ⟨2023, 11, 20, 0, 0, 0⟩) ≠ Ordering.gt :=
  ⟨((C5_period_cmp_total_lex.1 ⟨2023, 5⟩ ⟨2023, 6⟩).1).mpr (by decide),
   ((C5_period_cmp_total_lex.1 ⟨2023, 5⟩ ⟨2024, 1⟩).1).mpr (by decide),
   ((C5_period_cmp_total_lex.1 ⟨2023, 5⟩ ⟨2023, 5⟩).2.1).mpr rfl,
   (C5_period_cmp_total_lex.2.2.2.2.2.2.2.2 ⟨2023, 3, 5, 0, 0, 0⟩ ⟨2023, 11, 20, 0, 0, 0⟩
     (by decide)).1,
   (C5_period_cmp_total_lex.2.2.2.2.2.2.2.2 ⟨2023, 3, 5, 0, 0, 0⟩ ⟨2023, 11, 20, 0, 0, 0⟩
     (by decide)).2.2.1⟩

/-! ## C7 and C10: sequences of increments on a PeriodData -/

/-- Apply a sequence of `PeriodData::increment` calls; `none` as soon as
one of them panics. -/
def PeriodData.applyIncrements (pd : PeriodData) :
    List (IssueCategory × Counter) → Option PeriodData
  | [] => some pd
  | (category, counter) :: rest =>
    match pd.increment category counter with
    | some pd' => pd'.applyIncrements rest
    | none => none

/-- How many increments of a sequence target one (category, counter) cell. -/
def countOps : List (IssueCategory × Counter) → IssueCategory → Counter → Int
  | [], _, _ => 0
  | (c, k) :: rest, category, counter =>
    (if c = category ∧ k = counter then 1 else 0) + countOps rest category counter

/-- On a well-formed `PeriodData`, any increment sequence succeeds,
preserves well-formedness, and moves every `get` cell by exactly the
number of increments that target it. -/
theorem PeriodData.applyIncrements_ok (ops : List (IssueCategory × Counter))
    (pd : PeriodData) (hwf : pd.WF) :
    ∃ pd', pd.applyIncrements ops = some pd' ∧ pd'.WF ∧
      ∀ category counter,
        pd'.get category counter = pd.get category counter + countOps ops category counter := by
  induction ops generalizing pd with
  | nil =>
    exact ⟨pd, rfl, hwf, fun category counter => by simp [countOps]⟩
  | cons op rest ih =>
    obtain ⟨c, k⟩ := op
    have hsome := PeriodData.increment_isSome pd c k hwf
    cases hstep : pd.increment c k with
    | none => rw [hstep] at hsome; simp at hsome
    | some pd1 =>
      have hwf1 := PeriodData.increment_wf pd pd1 c k hstep hwf
      obtain ⟨pd', happ, hwf', hget⟩ := ih pd1 hwf1
      refine ⟨pd', ?_, hwf', ?_⟩
      · simp [PeriodData.applyIncrements, hstep, happ]
      · intro category counter
        rw [hget category counter,
          PeriodData.increment_get pd pd1 c category k counter hstep]
        simp only [countOps]
        by_cases h : c = category ∧ k = counter
        · obtain ⟨h1, h2⟩ := h
          simp [h1, h2]
          omega
        · have h' : ¬(category = c ∧ counter = k) := by
            intro hcc
            exact h ⟨hcc.1.symm, hcc.2.symm⟩
          simp [h, h']

/-- C7: the count lookup `PeriodData::get` is total and returns exactly
the number of increments ever applied to that (category, counter) cell —
in particular 0 when the cell was never incremented; absence is zero, not
an error. -/
theorem C7_get_returns_accumulated_or_zero :
    ∀ (ops : List (IssueCategory × Counter)) (category : IssueCategory) (counter : Counter),
      ∃ pd', PeriodData.mkDefault.applyIncrements ops = some pd' ∧
        pd'.get category counter = countOps ops category counter ∧
        (countOps ops category counter = 0 → pd'.get category counter = 0) := by
  intro ops category counter
  obtain ⟨pd', happ, _, hget⟩ :=
    PeriodData.applyIncrements_ok ops PeriodData.mkDefault PeriodData.mkDefault_wf
  refine ⟨pd', happ, ?_, ?_⟩
  · rw [hget category counter]
    simp [PeriodData.mkDefault, PeriodData.get, lookupE]
  · intro hzero
    rw [hget category counter, hzero]
    simp [PeriodData.mkDefault, PeriodData.get, lookupE]

/-- C10: starting from the derived `Default` (empty map, with `Counters`
defaulting to a map holding both the `Opened` and the `Closed` key), any
sequence of increments succeeds, every stored `Counters` map keeps both
keys, and the next `increment` — whose inner lookup is `unwrap`ped —
cannot panic for any category and counter kind. -/
theorem C10_increment_unwrap_never_panics :
    ∀ ops : List (IssueCategory × Counter),
      ∃ pd', PeriodData.mkDefault.applyIncrements ops = some pd' ∧ pd'.WF ∧
        ∀ (category : IssueCategory) (counter : Counter),
          (pd'.increment category counter).isSome := by
  intro ops
  obtain ⟨pd', happ, hwf, _⟩ :=
    PeriodData.applyIncrements_ok ops PeriodData.mkDefault PeriodData.mkDefault_wf
  exact ⟨pd', happ, hwf, fun category counter =>
    PeriodData.increment_isSome pd' category counter hwf⟩

/-! ## C3 and C8: classification -/

theorem firstLabelMatch_first (table : List (String × IssueCategory))
    (pre post : List LabelNode) (label : LabelNode) (category : IssueCategory)
    (hpre : ∀ l ∈ pre, lookupE table l.name = none)
    (hl : lookupE table label.name = some category) :
    firstLabelMatch table (pre ++ label :: post) = some category := by
  induction pre with
  | nil => simp [firstLabelMatch, hl]
  | cons hd tl ih =>
    have hhd : lookupE table hd.name = none := hpre hd (by simp)
    simp only [List.cons_append, firstLabelMatch, hhd]
    exact ih (fun l hm => hpre l (by simp [hm]))

theorem firstLabelMatch_eq_none (table : List (String × IssueCategory))
    (labels : List LabelNode) :
    firstLabelMatch table labels = none ↔
      ∀ l ∈ labels, lookupE table l.name = none := by
  induction labels with
  | nil => simp [firstLabelMatch]
  | cons hd tl ih =>
    simp only [firstLabelMatch, List.mem_cons]
    cases hhd : lookupE table hd.name with
    | some c =>
      simp only [reduceCtorEq, false_iff, not_forall]
      exact ⟨hd, Or.inl rfl, by simp [hhd]⟩
    | none =>
      rw [ih]
      constructor
      · intro hall l hm
        cases hm with
        | inl h => subst h; exact hhd
        | inr h => exact hall l h
      · intro hall l hm
        exact hall l (Or.inr hm)

/-- C3: categorization returns the category of the first label, in the
issue's own label order, that appears in the classification table, and
falls back to the table's wildcard `"*"` entry when no label matches. -/
theorem C3_categorize_first_match_or_default :
    ∀ (P : Type) (p : PlotData P) (issue : Issue),
      (∀ (pre post : List LabelNode) (label : LabelNode) (category : IssueCategory),
        issue.labelList = pre ++ label :: post →
        (∀ l ∈ pre, lookupE p.label_to_category l.name = none) →
        lookupE p.label_to_category label.name = some category →
        p.categorize_issue issue = some category) ∧
      ((∀ l ∈ issue.labelList, lookupE p.label_to_category l.name = none) →
        p.categorize_issue issue = lookupE p.label_to_category "*") := by
  intro P p issue
  constructor
  · intro pre post label category heq hpre hl
    unfold PlotData.categorize_issue
    rw [heq, firstLabelMatch_first p.label_to_category pre post label category hpre hl]
  · intro hall
    unfold PlotData.categorize_issue
    rw [(firstLabelMatch_eq_none p.label_to_category issue.labelList).mpr hall]

/-- Witness for C3: with table from config [("C-bug","bugs"),("*","other")],
an issue labelled ["unrelated","C-bug"] is categorized "bugs" and an issue
with no matching label is categorized "other". -/
theorem C3_witness :
    (PlotData.new Month [("C-bug", "bugs"), ("*", "other")]).categorize_issue
      ⟨⟨2023, 5, 1, 0, 0, 0⟩, none, IssueState.OPEN,
        some ⟨some [some ⟨"unrelated"⟩, some ⟨"C-bug"⟩]⟩, "u"⟩ = some "bugs" ∧
    (PlotData.new Month [("C-bug", "bugs"), ("*", "other")]).categorize_issue
      ⟨⟨2023, 5, 1, 0, 0, 0⟩, none, IssueState.OPEN,
        some ⟨some [some ⟨"zzz"⟩]⟩, "u"⟩ = some "other" :=
  ⟨(C3_categorize_first_match_or_default Month _ _).1
      [⟨"unrelated"⟩] [] ⟨"C-bug"⟩ "bugs" (by decide) (by decide) (by decide),
   ((C3_categorize_first_match_or_default Month _ _).2 (by decide)).trans (by decide)⟩

/-- C8 counterexample: with the wildcard entry missing from the table,
`PlotData::new` reports nothing and an issue whose label matches is
processed without any error — no fatal configuration error is raised
before issue processing; the panic (`none`) happens only when an issue
with no matching label is finally categorized, i.e. during processing. -/
theorem C8_counterexample :
    lookupE (PlotData.new Month [("C-bug", "bugs")]).label_to_category "*" = none ∧
    (PlotData.analyze_issue Month.fromTimestamp (PlotData.new Month [("C-bug", "bugs")])
      ⟨⟨2023, 5, 1, 0, 0, 0⟩, none, IssueState.OPEN,
        some ⟨some [some ⟨"C-bug"⟩]⟩, "u"⟩).isOk = true ∧
    (PlotData.new Month [("C-bug", "bugs")]).categorize_issue
      ⟨⟨2023, 5, 1, 0, 0, 0⟩, none, IssueState.OPEN,
        some ⟨some [some ⟨"zzz"⟩]⟩, "u"⟩ = none := by
  decide

/-- C8 (amended): a missing wildcard entry is not validated at
construction time; the fatal error (`expect` panic, embedded as `none`)
occurs at issue-processing time, exactly when an issue none of whose
labels appears in the table is categorized; once the table contains the
wildcard entry, classification itself never fails. -/
theorem C8_wildcard_lazy_fatal :
    ∀ (P : Type) (p : PlotData P) (issue : Issue),
      (lookupE p.label_to_category "*" = none →
        (p.categorize_issue issue = none ↔
          ∀ l ∈ issue.labelList, lookupE p.label_to_category l.name = none)) ∧
      (∀ category, lookupE p.label_to_category "*" = some category →
        (p.categorize_issue issue).isSome) := by
  intro P p issue
  constructor
  · intro hstar
    unfold PlotData.categorize_issue
    cases hfm : firstLabelMatch p.label_to_category issue.labelList with
    | some c =>
      simp only [reduceCtorEq, false_iff, not_forall]
      have hne : ¬ ∀ l ∈ issue.labelList, lookupE p.label_to_category l.name = none := by
        intro hall
        have h0 := (firstLabelMatch_eq_none p.label_to_category issue.labelList).mpr hall
        rw [hfm] at h0
        cases h0
      push_neg at hne
      obtain ⟨l, hm, hl⟩ := hne
      exact ⟨l, hm, hl⟩
    | none =>
      rw [hstar]
      constructor
      · intro _
        exact (firstLabelMatch_eq_none p.label_to_category issue.labelList).mp hfm
      · intro _
        rfl
  · intro category hstar
    unfold PlotData.categorize_issue
    cases hfm : firstLabelMatch p.label_to_category issue.labelList with
    | some c => simp
    | none => simp [hstar]

/-- Witness for the amended C8: the unmatched issue panics under the
wildcard-less table, and succeeds once the wildcard entry exists. -/
theorem C8_witness :
    (PlotData.new Month [("C-bug", "bugs")]).categorize_issue
      ⟨⟨2023, 5, 1, 0, 0, 0⟩, none, IssueState.OPEN,
        some ⟨some [some ⟨"zzz"⟩]⟩, "u"⟩ = none ∧
    ((PlotData.new Month [("C-bug", "bugs"), ("*", "other")]).categorize_issue
      ⟨⟨2023, 5, 1, 0, 0, 0⟩, none, IssueState.OPEN,
        some ⟨some [some ⟨"zzz"⟩]⟩, "u"⟩).isSome :=
  ⟨((C8_wildcard_lazy_fatal Month _ _).1 (by decide)).mpr (by decide),
   (C8_wildcard_lazy_fatal Month _ _).2 "other" (by decide)⟩

/-! ## C9 -/

/-- C9: evaluating the header and row renderings at a concrete input.
`PeriodStatsFile::add_headers` writes the literal placeholder
`TODO` followed by braces around `prefix` — not the column's label prefix
(that code is commented out in the source) — while the accumulated
column's header does use its `Open ` prefix; and with two labels mapped to
one category, `PlotData::new`'s `and_modify` appends only a comma, so the
parenthesized list drops the second label. The row segment is one numeric
field per category, in category order. -/
theorem C9_header_literal_todo :
    PeriodStatsFile.headersLine "Month" ["bugs"] [("bugs", "C-bug")] =
      "Month\tTODO\x7bprefix\x7dbugs (C-bug)\n" ∧
    AccumulatedPeriodStatsFile.headersLine "Month" ["bugs"] [("bugs", "C-bug")] =
      "Month\tOpen bugs (C-bug)\n" ∧
    lookupE (PlotData.new Month
        [("C-bug", "bugs"), ("C-defect", "bugs")]).category_to_labels "bugs" =
      some "C-bug," ∧
    PeriodStatsFile.rowValues (fun pd category => pd.get category Counter.Opened)
      ⟨[("bugs", ⟨[(Counter.Opened, 5), (Counter.Closed, 2)]⟩),
        ("other", ⟨[(Counter.Opened, 7), (Counter.Closed, 1)]⟩)]⟩
      ["bugs", "other"] = [5, 7] := by
  refine ⟨?_, ?_, ?_, ?_⟩ <;> decide

/-! ## C1 -/

theorem lookupE_upsertAddDelta_self (total : List (IssueCategory × Int))
    (category : IssueCategory) (delta : Int) :
    lookupE (upsertAddDelta total category delta) category =
      some ((lookupE total category).getD 0 + delta) := by
  simp [upsertAddDelta]

theorem lookupE_upsertAddDelta_ne (total : List (IssueCategory × Int))
    (category c' : IssueCategory) (delta : Int) (hne : c' ≠ category) :
    lookupE (upsertAddDelta total category delta) c' = lookupE total c' :=
  lookupE_insertEntry_ne total category c' _ hne

/-- The total map after one `add_row` pass: every listed category gained
its delta, everything else is untouched. -/
theorem addRowGo_total (pd : PeriodData) (cs : List IssueCategory)
    (total : List (IssueCategory × Int)) (c : IssueCategory) (hnd : cs.Nodup) :
    lookupE (AccumulatedPeriodStatsFile.addRowGo pd cs total).1 c =
      if c ∈ cs then some ((lookupE total c).getD 0 + periodDelta pd c)
      else lookupE total c := by
  induction cs generalizing total with
  | nil => simp [AccumulatedPeriodStatsFile.addRowGo]
  | cons c0 rest ih =>
    obtain ⟨hc0, hrest⟩ := List.nodup_cons.mp hnd
    simp only [AccumulatedPeriodStatsFile.addRowGo]
    rw [ih _ hrest]
    by_cases hc : c = c0
    · subst hc
      rw [if_neg hc0, lookupE_upsertAddDelta_self]
      simp
    · rw [lookupE_upsertAddDelta_ne _ _ _ _ hc]
      by_cases hm : c ∈ rest <;> simp [hm, hc]

/-- The values emitted by one `add_row` pass, category by category. -/
theorem addRowGo_values (pd : PeriodData) (cs : List IssueCategory)
    (total : List (IssueCategory × Int)) (hnd : cs.Nodup) :
    (AccumulatedPeriodStatsFile.addRowGo pd cs total).2 =
      cs.map (fun c => (lookupE total c).getD 0 + periodDelta pd c) := by
  induction cs generalizing total with
  | nil => simp [AccumulatedPeriodStatsFile.addRowGo]
  | cons c0 rest ih =>
    obtain ⟨hc0, hrest⟩ := List.nodup_cons.mp hnd
    simp only [AccumulatedPeriodStatsFile.addRowGo, List.map_cons]
    rw [ih _ hrest, lookupE_upsertAddDelta_self]
    simp only [Option.getD_some]
    congr 1
    refine List.map_congr_left ?_
    intro c hm
    have hne : c ≠ c0 := fun h => hc0 (h ▸ hm)
    rw [lookupE_upsertAddDelta_ne _ _ _ _ hne]

/-- Row `n` of the driven cumulative column, relative to a starting
total map. -/
theorem driveRows_getD (categories : List IssueCategory) (hnd : categories.Nodup) :
    ∀ (pds : List PeriodData) (total : List (IssueCategory × Int)) (n : Nat),
      n < pds.length →
      (AccumulatedPeriodStatsFile.driveRows categories pds total).getD n [] =
        categories.map (fun c =>
          (lookupE total c).getD 0 + cumulativeSum (pds.take (n + 1)) c) := by
  intro pds
  induction pds with
  | nil => intro total n h; cases h
  | cons pd rest ih =>
    intro total n h
    simp only [AccumulatedPeriodStatsFile.driveRows]
    cases n with
    | zero =>
      simp only [List.getD_cons_zero]
      rw [addRowGo_values pd categories total hnd]
      refine List.map_congr_left ?_
      intro c _
      simp [cumulativeSum, periodDelta]
    | succ n =>
      simp only [List.getD_cons_succ]
      rw [ih _ n (by simpa using h)]
      refine List.map_congr_left ?_
      intro c hm
      rw [addRowGo_total pd categories total c hnd, if_pos hm]
      simp [cumulativeSum, periodDelta]
      ring

theorem lookupE_zip_map (l : List IssueCategory) (f : IssueCategory → Int)
    (c : IssueCategory) (hc : c ∈ l) :
    lookupE (l.zip (l.map f)) c = some (f c) := by
  induction l with
  | nil => cases hc
  | cons a rest ih =>
    simp only [List.map_cons, List.zip_cons_cons, lookupE_cons]
    by_cases ha : a = c
    · subst ha; simp
    · rw [if_neg ha]
      exact ih ((List.mem_cons.mp hc).resolve_left (fun h => ha h.symm))

/-- C1: driving the cumulative column once per period, the value it emits
for a category after the n-th period (the field at that category's
position in the n-th emitted row) is the sum over the first n periods of
that period's (opened - closed) for the category. -/
theorem C1_cumulative_running_total :
    ∀ (categories : List IssueCategory) (category : IssueCategory)
      (pds : List PeriodData) (n : Nat),
      categories.Nodup → category ∈ categories → n < pds.length →
      lookupE (categories.zip
          ((AccumulatedPeriodStatsFile.driveRows categories pds []).getD n []))
        category =
        some (cumulativeSum (pds.take (n + 1)) category) := by
  intro categories category pds n hnd hmem hn
  rw [driveRows_getD categories hnd pds [] n hn]
  have : categories.map (fun c =>
      (lookupE ([] : List (IssueCategory × Int)) c).getD 0 +
        cumulativeSum (pds.take (n + 1)) c) =
      categories.map (fun c => cumulativeSum (pds.take (n + 1)) c) := by
    refine List.map_congr_left ?_
    intro c _
    simp
  rw [this, lookupE_zip_map categories _ category hmem]

/-- Witness for C1: with category "bugs" and two consecutive periods of
(opened 5, closed 2) then (opened 1, closed 4), the cumulative column
emits 3 then 0. -/
theorem C1_witness :
    lookupE (["bugs"].zip ((AccumulatedPeriodStatsFile.driveRows ["bugs"]
        [⟨[("bugs", ⟨[(Counter.Opened, 5), (Counter.Closed, 2)]⟩)]⟩,
         ⟨[("bugs", ⟨[(Counter.Opened, 1), (Counter.Closed, 4)]⟩)]⟩] []).getD 0 []))
      "bugs" = some 3 ∧
    lookupE (["bugs"].zip ((AccumulatedPeriodStatsFile.driveRows ["bugs"]
        [⟨[("bugs", ⟨[(Counter.Opened, 5), (Counter.Closed, 2)]⟩)]⟩,
         ⟨[("bugs", ⟨[(Counter.Opened, 1), (Counter.Closed, 4)]⟩)]⟩] []).getD 1 []))
      "bugs" = some 0 :=
  ⟨(C1_cumulative_running_total ["bugs"] "bugs" _ 0
      (by decide) (by decide) (by decide)).trans (by decide),
   (C1_cumulative_running_total ["bugs"] "bugs" _ 1
      (by decide) (by decide) (by decide)).trans (by decide)⟩

/-! ## Support for C2 and C6: the effect of analyzing one issue -/

/-- Lemma: a successful `PlotData::increment` moves exactly the target
(period, category, counter) cell by one. -/
theorem PlotData.increment_countOf {P : Type} [DecidableEq P] (p p' : PlotData P)
    (period : P) (category : IssueCategory) (counter : Counter)
    (h : p.increment period category counter = some p') :
    ∀ (per' : P) (cat' : IssueCategory) (ctr' : Counter),
      p'.countOf per' cat' ctr' = p.countOf per' cat' ctr' +
        (if per' = period ∧ cat' = category ∧ ctr' = counter then 1 else 0) := by
  unfold PlotData.increment at h
  cases hi : ((lookupE p.periods period).getD PeriodData.mkDefault).increment category
      counter with
  | none => rw [hi] at h; cases h
  | some pdNew =>
    rw [hi] at h
    cases h
    intro per' cat' ctr'
    unfold PlotData.countOf
    rw [lookupE_insertEntry]
    by_cases hper : per' = period
    · subst hper
      rw [if_pos rfl, Option.getD_some,
        PeriodData.increment_get _ _ category cat' counter ctr' hi]
      by_cases hcc : cat' = category ∧ ctr' = counter <;> simp [hcc]
    · simp [hper]

/-- Lemma: `PlotData::increment` touches only the `periods` field. -/
theorem PlotData.increment_label {P : Type} [DecidableEq P] (p p' : PlotData P)
    (period : P) (category : IssueCategory) (counter : Counter)
    (h : p.increment period category counter = some p') :
    p'.label_to_category = p.label_to_category := by
  unfold PlotData.increment at h
  cases hi : ((lookupE p.periods period).getD PeriodData.mkDefault).increment category
      counter with
  | none => rw [hi] at h; cases h
  | some pdNew => rw [hi] at h; cases h; rfl

/-- Classification as a function of the table alone (the only part of a
`PlotData` that `categorize_issue` reads). -/
def categorizeTable (table : List (String × IssueCategory)) (issue : Issue) :
    Option IssueCategory :=
  match firstLabelMatch table issue.labelList with
  | some category => some category
  | none => lookupE table "*"

theorem PlotData.categorize_issue_eq_table {P : Type} (p : PlotData P) (issue : Issue) :
    p.categorize_issue issue = categorizeTable p.label_to_category issue := rfl

/-- The contribution of one successfully analyzed issue to one
(period, category, counter) cell: one opened event in the creation period
plus, when an effective close time exists, one closed event in its
period. -/
def contrib {P : Type} [DecidableEq P] (table : List (String × IssueCategory))
    (fromTs : DTime → P) (issue : Issue) (period : P) (category : IssueCategory)
    (counter : Counter) : Int :=
  match categorizeTable table issue with
  | none => 0
  | some cat =>
    (if period = fromTs issue.created_at ∧ category = cat ∧ counter = Counter.Opened
      then 1 else 0) +
    (match issue.resolved_closed_at with
     | Except.ok (some d, _) =>
       if period = fromTs d ∧ category = cat ∧ counter = Counter.Closed then 1 else 0
     | _ => 0)

/-- Lemma: a successful `analyze_issue` changes every cell by exactly the
issue's contribution, and leaves the classification table unchanged. -/
theorem PlotData.analyze_issue_countOf {P : Type} [DecidableEq P] (fromTs : DTime → P)
    (p p' : PlotData P) (issue : Issue)
    (h : PlotData.analyze_issue fromTs p issue = Except.ok p') :
    p'.label_to_category = p.label_to_category ∧
    ∀ (period : P) (category : IssueCategory) (counter : Counter),
      p'.countOf period category counter = p.countOf period category counter +
        contrib p.label_to_category fromTs issue period category counter := by
  unfold PlotData.analyze_issue at h
  split at h
  · cases h
  · rename_i cat hcat
    split at h
    · cases h
    · rename_i p1 hi1
      have hcat' : categorizeTable p.label_to_category issue = some cat := by
        rw [← PlotData.categorize_issue_eq_table]; exact hcat
      split at h
      · cases h
      · rename_i d w hrc
        split at h
        · cases h
        · rename_i p2 hi2
          cases h
          refine ⟨?_, ?_⟩
          · rw [PlotData.increment_label _ _ _ _ _ hi2,
              PlotData.increment_label _ _ _ _ _ hi1]
          · intro period category counter
            rw [PlotData.increment_countOf _ _ _ _ _ hi2 period category counter,
              PlotData.increment_countOf _ _ _ _ _ hi1 period category counter]
            unfold contrib
            rw [hcat', hrc]
            ring
      · rename_i w hrc
        cases h
        refine ⟨PlotData.increment_label _ _ _ _ _ hi1, ?_⟩
        intro period category counter
        rw [PlotData.increment_countOf _ _ _ _ _ hi1 period category counter]
        unfold contrib
        rw [hcat', hrc]
        simp

/-- The total contribution of a list of optional issue records (the
`None` holes contribute nothing, as `iter().flatten()` skips them). -/
def sumContrib {P : Type} [DecidableEq P] (table : List (String × IssueCategory))
    (fromTs : DTime → P) (period : P) (category : IssueCategory) (counter : Counter) :
    List (Option Issue) → Int
  | [] => 0
  | none :: rest => sumContrib table fromTs period category counter rest
  | some issue :: rest =>
    contrib table fromTs issue period category counter +
      sumContrib table fromTs period category counter rest

/-- Lemma: a successful `analyze_issues` run changes every cell by the sum
of the issues' contributions, computed against the starting table. -/
theorem PlotData.analyze_issues_countOf {P : Type} [DecidableEq P] (fromTs : DTime → P)
    (issues : List (Option Issue)) :
    ∀ (p p' : PlotData P), PlotData.analyze_issues fromTs p issues = Except.ok p' →
      p'.label_to_category = p.label_to_category ∧
      ∀ (period : P) (category : IssueCategory) (counter : Counter),
        p'.countOf period category counter = p.countOf period category counter +
          sumContrib p.label_to_category fromTs period category counter issues := by
  induction issues with
  | nil =>
    intro p p' h
    cases h
    exact ⟨rfl, fun period category counter => by simp [sumContrib]⟩
  | cons oi rest ih =>
    intro p p' h
    cases oi with
    | none =>
      obtain ⟨htab, hcnt⟩ := ih p p' h
      exact ⟨htab, fun period category counter => by
        rw [hcnt period category counter]; rfl⟩
    | some issue =>
      unfold PlotData.analyze_issues at h
      cases ha : PlotData.analyze_issue fromTs p issue with
      | error e => rw [ha] at h; cases h
      | ok p1 =>
        rw [ha] at h
        obtain ⟨htab1, hcnt1⟩ := PlotData.analyze_issue_countOf fromTs p p1 issue ha
        obtain ⟨htab, hcnt⟩ := ih p1 p' h
        refine ⟨htab.trans htab1, ?_⟩
        intro period category counter
        rw [hcnt period category counter, hcnt1 period category counter, htab1]
        simp only [sumContrib]
        ring

theorem sumContrib_eq_sum {P : Type} [DecidableEq P] (table : List (String × IssueCategory))
    (fromTs : DTime → P) (period : P) (category : IssueCategory) (counter : Counter)
    (issues : List (Option Issue)) :
    sumContrib table fromTs period category counter issues =
      (issues.map (fun oi =>
        match oi with
        | none => 0
        | some issue => contrib table fromTs issue period category counter)).sum := by
  induction issues with
  | nil => rfl
  | cons oi rest ih => cases oi <;> simp [sumContrib, ih]

/-! ## C6 -/

/-- C6: analyzing two permuted sequences of (optional) issue records from
the same starting aggregator state yields, whenever both runs succeed,
identical final counters for every (period, category, counter) cell. -/
theorem C6_aggregation_order_invariant :
    ∀ (P : Type) [inst : DecidableEq P] (fromTs : DTime → P) (p : PlotData P)
      (l1 l2 : List (Option Issue)) (s1 s2 : PlotData P),
      l1.Perm l2 →
      PlotData.analyze_issues fromTs p l1 = Except.ok s1 →
      PlotData.analyze_issues fromTs p l2 = Except.ok s2 →
      ∀ (period : P) (category : IssueCategory) (counter : Counter),
        s1.countOf period category counter = s2.countOf period category counter := by
  intro P inst fromTs p l1 l2 s1 s2 hperm h1 h2 period category counter
  obtain ⟨-, hc1⟩ := PlotData.analyze_issues_countOf fromTs l1 p s1 h1
  obtain ⟨-, hc2⟩ := PlotData.analyze_issues_countOf fromTs l2 p s2 h2
  rw [hc1 period category counter, hc2 period category counter,
    sumContrib_eq_sum, sumContrib_eq_sum]
  congr 1
  exact List.Perm.sum_eq (hperm.map _)

/-- Concrete issue opened in May 2023, still open. -/
def c6IssueA : Issue :=
  ⟨⟨2023, 5, 1, 0, 0, 0⟩, none, IssueState.OPEN, some ⟨some [some ⟨"x"⟩]⟩, "a"⟩

/-- Concrete issue opened in March 2023 and closed in June 2023. -/
def c6IssueB : Issue :=
  ⟨⟨2023, 3, 2, 0, 0, 0⟩, some ⟨2023, 6, 3, 0, 0, 0⟩, IssueState.CLOSED,
    some ⟨some []⟩, "b"⟩

/-- The aggregator state after analyzing [A, B]. -/
def c6Run1 : PlotData Month :=
  ⟨[(⟨2023, 5⟩, ⟨[("all", ⟨[(Counter.Opened, 1), (Counter.Closed, 0)]⟩)]⟩),
    (⟨2023, 3⟩, ⟨[("all", ⟨[(Counter.Opened, 1), (Counter.Closed, 0)]⟩)]⟩),
    (⟨2023, 6⟩, ⟨[("all", ⟨[(Counter.Opened, 0), (Counter.Closed, 1)]⟩)]⟩)],
   [("*", "all")], [("all", "*")], ["all"]⟩

/-- The aggregator state after analyzing [B, A]. -/
def c6Run2 : PlotData Month :=
  ⟨[(⟨2023, 3⟩, ⟨[("all", ⟨[(Counter.Opened, 1), (Counter.Closed, 0)]⟩)]⟩),
    (⟨2023, 6⟩, ⟨[("all", ⟨[(Counter.Opened, 0), (Counter.Closed, 1)]⟩)]⟩),
    (⟨2023, 5⟩, ⟨[("all", ⟨[(Counter.Opened, 1), (Counter.Closed, 0)]⟩)]⟩)],
   [("*", "all")], [("all", "*")], ["all"]⟩

/-- Witness for C6: the two orders of a concrete two-issue batch produce
the same May-2023 opened count. -/
theorem C6_witness :
    PlotData.analyze_issues Month.fromTimestamp (PlotData.new Month [("*", "all")])
      [some c6IssueA, some c6IssueB] = Except.ok c6Run1 ∧
    PlotData.analyze_issues Month.fromTimestamp (PlotData.new Month [("*", "all")])
      [some c6IssueB, some c6IssueA] = Except.ok c6Run2 ∧
    c6Run1.countOf ⟨2023, 5⟩ "all" Counter.Opened =
      c6Run2.countOf ⟨2023, 5⟩ "all" Counter.Opened := by
  have h1 : PlotData.analyze_issues Month.fromTimestamp (PlotData.new Month [("*", "all")])
      [some c6IssueA, some c6IssueB] = Except.ok c6Run1 := rfl
  have h2 : PlotData.analyze_issues Month.fromTimestamp (PlotData.new Month [("*", "all")])
      [some c6IssueB, some c6IssueA] = Except.ok c6Run2 := rfl
  exact ⟨h1, h2,
    C6_aggregation_order_invariant Month Month.fromTimestamp
      (PlotData.new Month [("*", "all")]) [some c6IssueA, some c6IssueB]
      [some c6IssueB, some c6IssueA] c6Run1 c6Run2
      (List.Perm.swap (some c6IssueB) (some c6IssueA) []) h1 h2
      ⟨2023, 5⟩ "all" Counter.Opened⟩

/-! ## C2 -/

/-- C2: effective-close-time resolution. A present `closed_at` is used as
is; a `CLOSED` state without `closed_at` yields the warning flag and falls
back to `created_at`, so a successful analysis bumps both the opened and
the closed counter of `created_at`'s period; an unrecognized state (with
no `closed_at`) makes `analyze_issue` fail; an `OPEN` state without
`closed_at` yields no close time, leaving every closed counter unchanged
and bumping only the opened counter of `created_at`'s period. -/
theorem C2_effective_close_time :
    ∀ (P : Type) [inst : DecidableEq P] (fromTs : DTime → P) (p : PlotData P)
      (issue : Issue),
      (∀ d, issue.closed_at = some d →
        issue.resolved_closed_at = Except.ok (some d, false)) ∧
      (issue.closed_at = none → issue.state = IssueState.CLOSED →
        issue.resolved_closed_at = Except.ok (some issue.created_at, true) ∧
        ∀ (category : IssueCategory) (p' : PlotData P),
          p.categorize_issue issue = some category →
          PlotData.analyze_issue fromTs p issue = Except.ok p' →
          p'.countOf (fromTs issue.created_at) category Counter.Opened =
            p.countOf (fromTs issue.created_at) category Counter.Opened + 1 ∧
          p'.countOf (fromTs issue.created_at) category Counter.Closed =
            p.countOf (fromTs issue.created_at) category Counter.Closed + 1) ∧
      (issue.closed_at = none → ∀ s, issue.state = IssueState.Other s →
        ∃ e, PlotData.analyze_issue fromTs p issue = Except.error e) ∧
      (issue.closed_at = none → issue.state = IssueState.OPEN →
        issue.resolved_closed_at = Except.ok (none, false) ∧
        ∀ p' : PlotData P,
          PlotData.analyze_issue fromTs p issue = Except.ok p' →
          (∀ (period : P) (category : IssueCategory),
            p'.countOf period category Counter.Closed =
              p.countOf period category Counter.Closed) ∧
          ∀ category, p.categorize_issue issue = some category →
            p'.countOf (fromTs issue.created_at) category Counter.Opened =
              p.countOf (fromTs issue.created_at) category Counter.Opened + 1) := by
  intro P inst fromTs p issue
  refine ⟨?_, ?_, ?_, ?_⟩
  · intro d hd
    unfold IssueNode.resolved_closed_at
    rw [hd]
  · intro hnone hclosed
    have hrc : issue.resolved_closed_at = Except.ok (some issue.created_at, true) := by
      unfold IssueNode.resolved_closed_at
      rw [hnone, hclosed]
      simp
    refine ⟨hrc, ?_⟩
    intro category p' hcat hok
    obtain ⟨-, hcnt⟩ := PlotData.analyze_issue_countOf fromTs p p' issue hok
    have hcat' : categorizeTable p.label_to_category issue = some category := by
      rw [← PlotData.categorize_issue_eq_table]; exact hcat
    constructor
    · rw [hcnt (fromTs issue.created_at) category Counter.Opened]
      unfold contrib
      rw [hcat', hrc]
      simp
    · rw [hcnt (fromTs issue.created_at) category Counter.Closed]
      unfold contrib
      rw [hcat', hrc]
      simp
  · intro hnone s hst
    have hrc : issue.resolved_closed_at =
        Except.error ("Unknown issue state: " ++ s) := by
      unfold IssueNode.resolved_closed_at
      rw [hnone, hst]
      simp
    unfold PlotData.analyze_issue
    cases h1 : p.categorize_issue issue with
    | none => exact ⟨_, rfl⟩
    | some cat =>
      simp only [h1]
      cases h2 : p.increment (fromTs issue.created_at) cat Counter.Opened with
      | none => exact ⟨_, rfl⟩
      | some p1 =>
        simp only [h2, hrc]
        exact ⟨_, rfl⟩
  · intro hnone hopen
    have hrc : issue.resolved_closed_at = Except.ok (none, false) := by
      unfold IssueNode.resolved_closed_at
      rw [hnone, hopen]
      simp
    refine ⟨hrc, ?_⟩
    intro p' hok
    obtain ⟨-, hcnt⟩ := PlotData.analyze_issue_countOf fromTs p p' issue hok
    constructor
    · intro period category
      rw [hcnt period category Counter.Closed]
      unfold contrib
      cases hc : categorizeTable p.label_to_category issue with
      | none => simp
      | some cat => rw [hrc]; simp
    · intro category hcat
      have hcat' : categorizeTable p.label_to_category issue = some category := by
        rw [← PlotData.categorize_issue_eq_table]; exact hcat
      rw [hcnt (fromTs issue.created_at) category Counter.Opened]
      unfold contrib
      rw [hcat', hrc]
      simp

/-- Witness for C2: a CLOSED issue without `closed_at` falls back to its
creation instant and bumps both counters of May 2023; an issue with an
unknown state fails; a plain `closed_at` is taken as is. -/
theorem C2_witness :
    IssueNode.resolved_closed_at
        ⟨⟨2023, 3, 2, 0, 0, 0⟩, some ⟨2023, 6, 3, 0, 0, 0⟩, IssueState.CLOSED,
          some ⟨some []⟩, "b"⟩ = Except.ok (some ⟨2023, 6, 3, 0, 0, 0⟩, false) ∧
    (∃ p' : PlotData Month,
      PlotData.analyze_issue Month.fromTimestamp (PlotData.new Month [("*", "all")])
          ⟨⟨2023, 5, 1, 0, 0, 0⟩, none, IssueState.CLOSED, some ⟨some []⟩, "c"⟩ =
        Except.ok p' ∧
      p'.countOf (Month.fromTimestamp ⟨2023, 5, 1, 0, 0, 0⟩) "all" Counter.Opened =
        (PlotData.new Month [("*", "all")]).countOf
          (Month.fromTimestamp ⟨2023, 5, 1, 0, 0, 0⟩) "all" Counter.Opened + 1 ∧
      p'.countOf (Month.fromTimestamp ⟨2023, 5, 1, 0, 0, 0⟩) "all" Counter.Closed =
        (PlotData.new Month [("*", "all")]).countOf
          (Month.fromTimestamp ⟨2023, 5, 1, 0, 0, 0⟩) "all" Counter.Closed + 1) ∧
    (∃ e, PlotData.analyze_issue Month.fromTimestamp (PlotData.new Month [("*", "all")])
        ⟨⟨2023, 5, 1, 0, 0, 0⟩, none, IssueState.Other "WEIRD", some ⟨some []⟩, "d"⟩ =
      Except.error e) :=
  ⟨(C2_effective_close_time Month Month.fromTimestamp (PlotData.new Month [("*", "all")])
      ⟨⟨2023, 3, 2, 0, 0, 0⟩, some ⟨2023, 6, 3, 0, 0, 0⟩, IssueState.CLOSED,
        some ⟨some []⟩, "b"⟩).1 ⟨2023, 6, 3, 0, 0, 0⟩ rfl,
   ⟨_, rfl,
    ((C2_effective_close_time Month Month.fromTimestamp (PlotData.new Month [("*", "all")])
        ⟨⟨2023, 5, 1, 0, 0, 0⟩, none, IssueState.CLOSED, some ⟨some []⟩, "c"⟩).2.1
      rfl rfl).2 "all" _ (by decide) rfl⟩,
   (C2_effective_close_time Month Month.fromTimestamp (PlotData.new Month [("*", "all")])
      ⟨⟨2023, 5, 1, 0, 0, 0⟩, none, IssueState.Other "WEIRD", some ⟨some []⟩, "d"⟩).2.2.1
     rfl "WEIRD" rfl⟩

end GhTrends
